import Mathlib

/-!
Verification development for the pngr repository (src/pngr/create_dataset.py
and src/palinor/cli/cli.py): a shallow embedding of the contrastive dataset
generation pipeline (template loading, prompt pair generation, JSONL
serialisation) and of the interactive session helper, with theorems about the
spec's claims.
-/

namespace Pngr

instance instDecEqExcept {ε α : Type} [DecidableEq ε] [DecidableEq α] :
    DecidableEq (Except ε α) := fun x y =>
  match x, y with
  | .ok a, .ok b =>
    if h : a = b then .isTrue (by rw [h])
    else .isFalse (by intro hh; injection hh; contradiction)
  | .error a, .error b =>
    if h : a = b then .isTrue (by rw [h])
    else .isFalse (by intro hh; injection hh; contradiction)
  | .ok _, .error _ => .isFalse (fun h => Except.noConfusion h)
  | .error _, .ok _ => .isFalse (fun h => Except.noConfusion h)

/-- Python exceptions the embedded code can raise.  `fileNotFoundError` is what
the spec's taxonomy calls `NotFoundError`; `yamlError` stands for
`yaml.YAMLError`; the remaining constructors are the structural failures the
spec groups under `TemplateFormatError` (missing key, wrong value type,
malformed format string, bad replacement field). -/
inductive PyErr where
  | fileNotFoundError
  | yamlError
  | typeError
  | keyErrorE (key : String)
  | attributeError
  | valueError
  | indexError
  deriving DecidableEq

/-- One piece of a Python format string as `str.format` parses it: a literal
character, or a named replacement field `{name}`. -/
inductive Seg where
  | lit (c : Char)
  | field (name : String)
  deriving DecidableEq

/-- Python's parse of a format string (the scanner behind `str.format`):
`{{` and `}}` are brace escapes, `{name}` is a replacement field, a lone or
unclosed brace raises `ValueError`, as does a `{` inside a field name.  The
second argument is `none` outside a field and `some acc` inside one, `acc`
holding the field name's characters in reverse.  Conversion (`!r`) and
format-spec (`:…`) suffixes are not modelled: the templates of this repository
use plain keyword fields such as `{identity}`. -/
def parseFmt : List Char → Option (List Char) → Except PyErr (List Seg)
  | [], none => .ok []
  | '{' :: '{' :: rest, none => (parseFmt rest none).map (Seg.lit '{' :: ·)
  | '}' :: '}' :: rest, none => (parseFmt rest none).map (Seg.lit '}' :: ·)
  | '{' :: rest, none => parseFmt rest (some [])
  | '}' :: _, none => .error .valueError
  | c :: rest, none => (parseFmt rest none).map (Seg.lit c :: ·)
  | [], some _ => .error .valueError
  | '}' :: rest, some acc => (parseFmt rest none).map (Seg.field (String.mk acc.reverse) :: ·)
  | '{' :: _, some _ => .error .valueError
  | c :: rest, some acc => parseFmt rest (some (c :: acc))

/-- Substitution phase of `str.format` called with keyword arguments only (the
source calls `system_template.format(identity=...)`): a field whose name is
empty or numeric is positional and raises `IndexError` (no positional
arguments are passed); any other name is looked up among the keyword
arguments, raising `KeyError` when absent. -/
def renderSegs : List Seg → (String → Option String) → Except PyErr (List Char)
  | [], _ => .ok []
  | .lit c :: rest, kw => (renderSegs rest kw).map (c :: ·)
  | .field n :: rest, kw =>
    if n.data.all (·.isDigit) then .error .indexError
    else
      match kw n with
      | some v => (renderSegs rest kw).map (v.data ++ ·)
      | none => .error (.keyErrorE n)

/-- Python's `t.format(**kw)` for a keyword substitution map. -/
def pyFormat (t : String) (kw : String → Option String) : Except PyErr String :=
  (parseFmt t.data none).bind fun segs => (renderSegs segs kw).map String.mk

/-- The keyword argument map of `template.format(identity=v)`. -/
def identKw (v : String) : String → Option String :=
  fun n => if n = "identity" then some v else none

/-- A schema-conforming template record (spec §3): a system template string and
the user prompts. -/
structure TemplateRecord where
  system_template : String
  prompts : List String
  deriving DecidableEq

/-- One conversation turn, `{"role": ..., "content": ...}`. -/
structure Message where
  role : String
  content : String
  deriving DecidableEq

/-- A contrastive pair as `create_personality_prompts` builds it: a plain dict
with items `a` and `b`, each a two-message conversation. -/
structure DatasetEntry where
  a : List Message
  b : List Message
  deriving DecidableEq

/-- The entry appended by the inner loop of `create_personality_prompts`
(src/pngr/create_dataset.py lines 35-47). -/
def mkPair (system1 system2 p : String) : DatasetEntry :=
  ⟨[⟨"system", system1⟩, ⟨"user", p⟩], [⟨"system", system2⟩, ⟨"user", p⟩]⟩

/-- The loop of `create_personality_prompts` (src/pngr/create_dataset.py lines
26-49) on schema-conforming template records: per record, format the system
template once per personality, then emit one entry per user prompt, in order;
a raised exception aborts the whole call with no partial result. -/
def create_prompts_records : List TemplateRecord → String → String →
    Except PyErr (List DatasetEntry)
  | [], _, _ => .ok []
  | t :: rest, a_adjective, b_adjective => do
    let system1 ← pyFormat t.system_template (identKw a_adjective)
    let system2 ← pyFormat t.system_template (identKw b_adjective)
    let tail ← create_prompts_records rest a_adjective b_adjective
    .ok (t.prompts.map (fun p => mkPair system1 system2 p) ++ tail)

/-- Content of the `i`-th turn of a conversation (`ms[i].content`). -/
def turnContent (ms : List Message) (i : Nat) : Option String :=
  (ms.get? i).map Message.content

/-- A parsed YAML document (`yaml.safe_load`'s result), as far as the template
pipeline inspects it.  Mapping keys are modelled as strings, which covers the
template schema. -/
inductive Yaml where
  | null
  | bool (b : Bool)
  | int (n : Int)
  | str (s : String)
  | list (items : List Yaml)
  | map (entries : List (String × Yaml))

/-- Lookup in a parsed YAML mapping (Python dict indexing, first phase). -/
def yamlLookup : List (String × Yaml) → String → Option Yaml
  | [], _ => none
  | (k, v) :: rest, key => if k = key then some v else yamlLookup rest key

/-- Python iteration `for x in v`: a list yields its items, a string its
characters (as one-character strings), a dict its keys; `None` and numbers are
not iterable (`TypeError`). -/
def pyIter : Yaml → Except PyErr (List Yaml)
  | .list items => .ok items
  | .str s => .ok (s.data.map fun c => .str (String.mk [c]))
  | .map entries => .ok (entries.map fun kv => Yaml.str kv.1)
  | _ => .error .typeError

/-- Python subscription `v["key"]`: a dict looks the key up (`KeyError` when
absent); strings and lists reject a string index, and other values are not
subscriptable (`TypeError`). -/
def pySubscript : Yaml → String → Except PyErr Yaml
  | .map entries, key =>
    match yamlLookup entries key with
    | some v => .ok v
    | none => .error (.keyErrorE key)
  | _, _ => .error .typeError

/-- Python `v.format(identity=...)` on an arbitrary value: only strings have a
`format` method; any other value raises `AttributeError`. -/
def pyFormatVal (v : Yaml) (kw : String → Option String) : Except PyErr String :=
  match v with
  | .str s => pyFormat s kw
  | _ => .error .attributeError

/-- A message dict built by the generator when the template file is untyped:
the user-turn content is whatever object stood in the `prompts` list. -/
structure UMessage where
  role : String
  content : Yaml

/-- A contrastive pair built from an untyped template document. -/
structure UEntry where
  a : List UMessage
  b : List UMessage

/-- The entry appended by the inner loop, untyped user prompt. -/
def mkUPair (system1 system2 : String) (p : Yaml) : UEntry :=
  ⟨[⟨"system", .str system1⟩, ⟨"user", p⟩], [⟨"system", .str system2⟩, ⟨"user", p⟩]⟩

/-- The loop of `create_personality_prompts` over the items the template
document yields, exactly in source order: subscript `"system_template"`, then
`"prompts"`, then format the template with each personality, then iterate the
prompts. -/
def create_prompts_doc_go : List Yaml → String → String → Except PyErr (List UEntry)
  | [], _, _ => .ok []
  | template :: rest, a_adjective, b_adjective => do
    let system_template ← pySubscript template "system_template"
    let user_prompts ← pySubscript template "prompts"
    let system1 ← pyFormatVal system_template (identKw a_adjective)
    let system2 ← pyFormatVal system_template (identKw b_adjective)
    let ups ← pyIter user_prompts
    let tail ← create_prompts_doc_go rest a_adjective b_adjective
    .ok (ups.map (fun p => mkUPair system1 system2 p) ++ tail)

/-- Body of `create_personality_prompts` after loading: `for template in
templates` over the parsed document. -/
def create_prompts_doc (doc : Yaml) (a_adjective b_adjective : String) :
    Except PyErr (List UEntry) := do
  let templates ← pyIter doc
  create_prompts_doc_go templates a_adjective b_adjective

/-- What the filesystem holds at a path, from the template loader's point of
view: no file, a file that is not valid YAML, or a file parsing to a document. -/
inductive FileState where
  | absent
  | invalidYaml
  | parsed (doc : Yaml)

/-- A filesystem of template files. -/
def TemplateFs : Type := String → FileState

/-- `load_yaml_template` (src/pngr/create_dataset.py lines 10-13): `open`
raises `FileNotFoundError` for a missing path, `yaml.safe_load` raises
`yaml.YAMLError` on unparseable text, and otherwise the parsed document is
returned unchecked. -/
def load_yaml_template (fs : TemplateFs) (file_path : String) : Except PyErr Yaml :=
  match fs file_path with
  | .absent => .error .fileNotFoundError
  | .invalidYaml => .error .yamlError
  | .parsed doc => .ok doc

/-- `create_personality_prompts` (src/pngr/create_dataset.py lines 16-49) as a
whole: load the template file, then run the generation loop over whatever
document it parsed to. -/
def create_personality_prompts (fs : TemplateFs)
    (template_path a_adjective b_adjective : String) : Except PyErr (List UEntry) := do
  let templates ← load_yaml_template fs template_path
  create_prompts_doc templates a_adjective b_adjective

/-! ### Dataset serialisation (`save_prompts`, and the spec's `load`)

`json.dumps` with default options: separators `", "` and `": "`, dict keys in
insertion order, `ensure_ascii=True` string escaping (two-character escapes
for the common controls, `\uXXXX` otherwise, surrogate pairs above
`0xFFFF`). -/

/-- Lower-case hex digit, as `json.dumps` emits. -/
def hexDigitChar (n : Nat) : Char :=
  if n < 10 then Char.ofNat (48 + n) else Char.ofNat (87 + n)

/-- Four hex digits of `n < 0x10000`, most significant first. -/
def hex4 (n : Nat) : List Char :=
  [hexDigitChar (n / 4096 % 16), hexDigitChar (n / 256 % 16),
   hexDigitChar (n / 16 % 16), hexDigitChar (n % 16)]

/-- `json.dumps` escaping of one character (`ensure_ascii=True`): the eight
short escapes, `\uXXXX` for other controls and all non-ASCII, surrogate pairs
above the basic plane, printable ASCII unchanged. -/
def escapeChar (c : Char) : List Char :=
  if c = '"' then ['\\', '"']
  else if c = '\\' then ['\\', '\\']
  else if c = '\n' then ['\\', 'n']
  else if c = '\t' then ['\\', 't']
  else if c = '\r' then ['\\', 'r']
  else if c = Char.ofNat 8 then ['\\', 'b']
  else if c = Char.ofNat 12 then ['\\', 'f']
  else if c.toNat < 32 ∨ 127 ≤ c.toNat then
    if c.toNat < 65536 then '\\' :: 'u' :: hex4 c.toNat
    else
      ('\\' :: 'u' :: hex4 (55296 + (c.toNat - 65536) / 1024)) ++
        ('\\' :: 'u' :: hex4 (56320 + (c.toNat - 65536) % 1024))
  else [c]

/-- A JSON string literal's characters. -/
def encodeString (s : String) : List Char :=
  '"' :: (s.data.flatMap escapeChar ++ ['"'])

/-- Literal fragment `{"role": ` of a serialised message. -/
def litRole : List Char := "\x7b\"role\": ".data

/-- Literal fragment `, "content": ` of a serialised message. -/
def litContent : List Char := ", \"content\": ".data

/-- Literal fragment `{"a": ` opening a serialised entry. -/
def litA : List Char := "\x7b\"a\": ".data

/-- Literal fragment `, "b": ` between the two conversations. -/
def litB : List Char := ", \"b\": ".data

/-- Closing brace of a serialised dict. -/
def litClose : List Char := "\x7d".data

/-- `json.dumps` of one message dict (keys in insertion order). -/
def encodeMessage (m : Message) : List Char :=
  litRole ++ encodeString m.role ++ litContent ++ encodeString m.content ++ litClose

/-- The serialised list after its first message: `, `-separated messages, then
the closing bracket. -/
def msgsTail : List Message → List Char
  | [] => [']']
  | m :: ms => ',' :: ' ' :: (encodeMessage m ++ msgsTail ms)

/-- `json.dumps` of a message list (`[` + `", ".join(...)` + `]`). -/
def encodeMsgList : List Message → List Char
  | [] => ['[', ']']
  | m :: ms => '[' :: (encodeMessage m ++ msgsTail ms)

/-- `json.dumps` of one dataset entry, as `save_prompts` writes it on one
line. -/
def encodeEntry (e : DatasetEntry) : String :=
  String.mk (litA ++ encodeMsgList e.a ++ litB ++ encodeMsgList e.b ++ litClose)

/-- `save_prompts` (src/pngr/create_dataset.py lines 52-60): the text written
to the (UTF-8) output file, `json.dumps(prompt) + "\n"` per entry, in order.
The file is opened with mode `"w"`: see `writeFile` for the overwrite. -/
def save_prompts (prompts : List DatasetEntry) : String :=
  String.mk ((prompts.map fun e => (encodeEntry e).data ++ ['\n']).flatten)

/-- Writing a file: the path now maps to the new content whatever it held
before (mode `"w"` truncates), other paths are untouched. -/
def writeFile (files : String → Option String) (path content : String) :
    String → Option String :=
  fun q => if q = path then some content else files q

/-- Value of an ASCII hex digit (either case). -/
def readHexDigit (c : Char) : Option Nat :=
  if 48 ≤ c.toNat ∧ c.toNat ≤ 57 then some (c.toNat - 48)
  else if 97 ≤ c.toNat ∧ c.toNat ≤ 102 then some (c.toNat - 87)
  else if 65 ≤ c.toNat ∧ c.toNat ≤ 70 then some (c.toNat - 55)
  else none

/-- Value of four hex digits, most significant first. -/
def readHex4 (c1 c2 c3 c4 : Char) : Option Nat := do
  let d1 ← readHexDigit c1
  let d2 ← readHexDigit c2
  let d3 ← readHexDigit c3
  let d4 ← readHexDigit c4
  some (4096 * d1 + 256 * d2 + 16 * d3 + d4)

/-- One step of scanning a JSON string body: the closing quote, one decoded
content character, or a malformed rest. -/
inductive StrTok where
  | close (rest : List Char)
  | chr (c : Char) (rest : List Char)
  | bad

/-- Decode one step of a JSON string body (after the opening quote): a closing
quote ends the string, a backslash starts one of the escapes `json` emits
(`\uXXXX` pairs of surrogates are combined; lone surrogates are rejected — a
Unicode scalar string cannot hold them), anything else stands for itself. -/
def readStringChar : List Char → StrTok
  | [] => .bad
  | c :: rest =>
    if c = '"' then .close rest
    else if c = '\\' then
      match rest with
      | [] => .bad
      | e :: rest2 =>
        if e = 'n' then .chr '\n' rest2
        else if e = 't' then .chr '\t' rest2
        else if e = 'r' then .chr '\r' rest2
        else if e = 'b' then .chr (Char.ofNat 8) rest2
        else if e = 'f' then .chr (Char.ofNat 12) rest2
        else if e = '"' then .chr '"' rest2
        else if e = '\\' then .chr '\\' rest2
        else if e = '/' then .chr '/' rest2
        else if e = 'u' then
          match rest2 with
          | c1 :: c2 :: c3 :: c4 :: r =>
            match readHex4 c1 c2 c3 c4 with
            | none => .bad
            | some n =>
              if 55296 ≤ n ∧ n < 56320 then
                match r with
                | s1 :: u1 :: d1 :: d2 :: d3 :: d4 :: r2 =>
                  if s1 = '\\' ∧ u1 = 'u' then
                    match readHex4 d1 d2 d3 d4 with
                    | none => .bad
                    | some n2 =>
                      if 56320 ≤ n2 ∧ n2 < 57344 then
                        .chr (Char.ofNat (65536 + 1024 * (n - 55296) + (n2 - 56320))) r2
                      else .bad
                  else .bad
                | _ => .bad
              else if 56320 ≤ n ∧ n < 57344 then .bad
              else .chr (Char.ofNat n) r
          | _ => .bad
        else .bad
    else .chr c rest

/-- JSON string body parser: repeat `readStringChar` until the closing quote.
`fuel` bounds the loop; callers pass more than the input length, ample since
every step consumes at least one character. -/
def parseStrLoop : Nat → List Char → Option (List Char × List Char)
  | 0, _ => none
  | fuel + 1, l =>
    match readStringChar l with
    | .close rest => some ([], rest)
    | .chr c rest => (parseStrLoop fuel rest).map fun p => (c :: p.1, p.2)
    | .bad => none

/-- A JSON string literal, returning the decoded string and the rest. -/
def parseJsonString (l : List Char) : Option (String × List Char) :=
  match l with
  | c :: rest =>
    if c = '"' then (parseStrLoop (rest.length + 1) rest).map fun p => (String.mk p.1, p.2)
    else none
  | [] => none

/-- Consume an expected literal prefix. -/
def expectLit : List Char → List Char → Option (List Char)
  | [], input => some input
  | _ :: _, [] => none
  | c :: cs, d :: input => if d = c then expectLit cs input else none

/-- One serialised message dict. -/
def parseMessage (l : List Char) : Option (Message × List Char) := do
  let r1 ← expectLit litRole l
  let (role, r2) ← parseJsonString r1
  let r3 ← expectLit litContent r2
  let (content, r4) ← parseJsonString r3
  let r5 ← expectLit litClose r4
  some (⟨role, content⟩, r5)

/-- Messages after the first: `, `-separated until `]`.  `fuel` bounds the
recursion; callers pass the input length, ample since every message occupies
at least one character. -/
def parseMsgsRest : Nat → List Char → Option (List Message × List Char)
  | 0, _ => none
  | _ + 1, ']' :: rest => some ([], rest)
  | fuel + 1, ',' :: ' ' :: rest => do
    let (m, r) ← parseMessage rest
    let (ms, r2) ← parseMsgsRest fuel r
    some (m :: ms, r2)
  | _ + 1, _ => none

/-- A serialised message list. -/
def parseMsgList (fuel : Nat) (l : List Char) : Option (List Message × List Char) :=
  match l with
  | '[' :: ']' :: rest => some ([], rest)
  | '[' :: rest => do
    let (m, r) ← parseMessage rest
    let (ms, r2) ← parseMsgsRest fuel r
    some (m :: ms, r2)
  | _ => none

/-- One line of the dataset file: exactly one serialised entry. -/
def parseEntryLine (l : List Char) : Option DatasetEntry := do
  let r1 ← expectLit litA l
  let (a, r2) ← parseMsgList l.length r1
  let r3 ← expectLit litB r2
  let (b, r4) ← parseMsgList l.length r3
  let r5 ← expectLit litClose r4
  match r5 with
  | [] => some ⟨a, b⟩
  | _ => none

/-- Split at every newline (so `splitNl l` always has one more element than
`l` has newlines). -/
def splitNl : List Char → List (List Char)
  | [] => [[]]
  | c :: rest =>
    if c = '\n' then [] :: splitNl rest
    else
      match splitNl rest with
      | [] => [[c]]
      | l :: ls => (c :: l) :: ls

/-- The lines of a text file as Python file iteration yields them: a final
newline terminates the last line rather than opening an empty one. -/
def fileLines (l : List Char) : List (List Char) :=
  match (splitNl l).getLast? with
  | some [] => (splitNl l).dropLast
  | _ => splitNl l

/-- String-level view of `fileLines`. -/
def fileLinesS (s : String) : List String :=
  (fileLines s.data).map String.mk

/-- Parse each line into one entry; any bad line fails the whole load. -/
def parseLines : List (List Char) → Option (List DatasetEntry)
  | [] => some []
  | l :: ls => do
    let e ← parseEntryLine l
    let rest ← parseLines ls
    some (e :: rest)

/-- Modelled from the spec: the repository ships no dataset loader under src/
(§4.3 specifies a symmetric `load` capability for round-trip verification, and
no `load` exists in the source files).  Reads a line-delimited JSON dataset
file: one JSON object per line, lines taken as Python file iteration yields
them, each parsed back into a `DatasetEntry`. -/
def load_prompts (content : String) : Option (List DatasetEntry) :=
  parseLines (fileLines content.data)

/-! ### The interactive session (`palinorShell`, src/palinor/cli/cli.py) -/

/-- A call the session forwards to the external `palinorManager`. -/
inductive ManagerCall where
  | trainVectorCall (name a_trait b_trait : String)
  deriving DecidableEq

/-- Observable outcome of `palinorShell.train_vector`: the printed
dataset-not-found report (the spec's `NotFoundError`), a raised exception, or
a completed delegation. -/
inductive TrainOutcome where
  | notFoundReported
  | raised (e : PyErr)
  | trained
  deriving DecidableEq

/-- State of one interactive session: the per-user home, the installed package
directory (for the default template path), the template files (already parsed
to schema-conforming records), the written dataset files, the directories that
exist, and the in-memory dataset registry in insertion order. -/
structure ShellState where
  home : String
  packageDir : String
  templateFiles : String → Option (List TemplateRecord)
  files : String → Option String
  dirs : List String
  datasets : List (String × List DatasetEntry)

/-- Python dict membership/lookup over the insertion-ordered registry. -/
def lookupDataset : List (String × List DatasetEntry) → String → Option (List DatasetEntry)
  | [], _ => none
  | (k, v) :: rest, key => if k = key then some v else lookupDataset rest key

/-- Python dict assignment `self.datasets[name] = prompts`: replace in place,
or append as the newest key. -/
def storeDataset : List (String × List DatasetEntry) → String → List DatasetEntry →
    List (String × List DatasetEntry)
  | [], key, v => [(key, v)]
  | (k, w) :: rest, key, v =>
    if k = key then (key, v) :: rest else (k, w) :: storeDataset rest key v

/-- The canonical per-user dataset directory `~/.palinor/datasets`. -/
def datasetsDir (st : ShellState) : String := st.home ++ "/.palinor/datasets"

/-- The canonical dataset file path `~/.palinor/datasets/<name>.jsonl`. -/
def datasetPath (st : ShellState) (name : String) : String :=
  datasetsDir st ++ "/" ++ name ++ ".jsonl"

/-- The bundled default template path
(`Path(__file__).parent.parent / "dataset_templates/alphapenger.yaml"`). -/
def defaultTemplate (st : ShellState) : String :=
  st.packageDir ++ "/dataset_templates/alphapenger.yaml"

/-- `palinorShell.create_dataset` (src/palinor/cli/cli.py lines 26-48), on
template files that parse to schema-conforming records (the untyped template
side is covered by `create_personality_prompts` above): generate the prompts,
`mkdir -p` the canonical dataset directory, save to
`~/.palinor/datasets/<name>.jsonl`, and register the dataset in the in-memory
dict. -/
def shell_create_dataset (st : ShellState) (name a_trait b_trait : String)
    (template_path : Option String) : Except PyErr ShellState :=
  let tp := template_path.getD (defaultTemplate st)
  match st.templateFiles tp with
  | none => .error .fileNotFoundError
  | some recs => do
    let prompts ← create_prompts_records recs a_trait b_trait
    .ok { st with
          dirs := (st.home ++ "/.palinor") :: datasetsDir st :: st.dirs,
          files := writeFile st.files (datasetPath st name) (save_prompts prompts),
          datasets := storeDataset st.datasets name prompts }

/-- Python attribute access `entry.a_trait` / `entry.b_trait` on a dataset
entry.  `create_personality_prompts` builds every entry as a plain dict
(`{"a": [...], "b": [...]}`); a Python dict's items are not attributes, so
attribute lookup on such an entry finds nothing, whatever the requested name:
the access raises `AttributeError`, modelled as `none`. -/
def entryAttr (_e : DatasetEntry) (_attr : String) : Option String := none

/-- `palinorShell.train_vector` (src/palinor/cli/cli.py lines 61-69): report
and stop when the dataset name is unregistered; otherwise evaluate
`dataset[0].a_trait` / `dataset[0].b_trait` and call the manager's
`train_vector` with them.  Returns the state after the call, the manager calls
made, and the observable outcome. -/
def train_vector (st : ShellState) (name dataset_name : String) :
    ShellState × List ManagerCall × TrainOutcome :=
  match lookupDataset st.datasets dataset_name with
  | none => (st, [], .notFoundReported)
  | some dataset =>
    match dataset.head? with
    | none => (st, [], .raised .indexError)
    | some entry =>
      match entryAttr entry "a_trait" with
      | none => (st, [], .raised .attributeError)
      | some aT =>
        match entryAttr entry "b_trait" with
        | none => (st, [], .raised .attributeError)
        | some bT => (st, [.trainVectorCall name aT bT], .trained)

/-- `palinorShell.list_datasets`: the registered names in insertion order. -/
def list_datasets (st : ShellState) : List String := st.datasets.map (·.1)

/-! ### Predicates used by the claims -/

/-- Rendering of an all-`identity` segment list with the substituted value:
what `renderSegs` produces when it succeeds under `identKw`. -/
def flatRender (segs : List Seg) (v : String) : List Char :=
  match segs with
  | [] => []
  | .lit c :: rest => c :: flatRender rest v
  | .field _ :: rest => v.data ++ flatRender rest v

/-- Number of replacement fields in a segment list. -/
def numFields : List Seg → Nat
  | [] => 0
  | .lit _ :: rest => numFields rest
  | .field _ :: rest => numFields rest + 1

/-- The template parses and every replacement field is the keyword
`identity` — the shape under which `.format(identity=...)` succeeds (spec §3's
template invariant). -/
def templateFieldsOk (t : String) : Bool :=
  match parseFmt t.data none with
  | .ok segs =>
    segs.all fun s =>
      match s with
      | .lit _ => true
      | .field n => n == "identity"
  | .error _ => false

/-- The template parses and contains at least one `{identity}` replacement
field. -/
def hasIdentityField (t : String) : Bool :=
  match parseFmt t.data none with
  | .ok segs => segs.contains (Seg.field "identity")
  | .error _ => false

/-- Number of literal characters in a segment list. -/
def litCount : List Seg → Nat
  | [] => 0
  | .lit _ :: rest => litCount rest + 1
  | .field _ :: rest => litCount rest

/-- A template document item of the shape the spec requires: a mapping with
the keys `system_template` and `prompts`. -/
def RecordConforms (y : Yaml) : Prop :=
  ∃ kvs, y = Yaml.map kvs ∧ (yamlLookup kvs "system_template").isSome = true ∧
    (yamlLookup kvs "prompts").isSome = true

/-- A template document of the shape the spec requires: a sequence of
conforming mappings. -/
def DocConforms (y : Yaml) : Prop :=
  ∃ items, y = Yaml.list items ∧ ∀ it ∈ items, RecordConforms it

/-- Errors the spec's taxonomy groups under `TemplateFormatError`: every
structural failure, as opposed to the missing-file `NotFoundError`. -/
def templateFormatClass : PyErr → Bool
  | .fileNotFoundError => false
  | _ => true

/-- The run aborted with an error of the `TemplateFormatError` class. -/
def failsWithTemplateFormatError (r : Except PyErr (List UEntry)) : Prop :=
  match r with
  | .error e => templateFormatClass e = true
  | .ok _ => False

/-! ### Concrete fixtures for witnesses and counterexamples -/

/-- A filesystem where every path holds a template file parsing to `[]`. -/
def fsAlpha : TemplateFs := fun _ => FileState.parsed (.list [])

/-- A filesystem with one template file (parsing to `[]`) at `alpha.yaml`. -/
def fsBeta : TemplateFs := fun p =>
  if p = "alpha.yaml" then FileState.parsed (.list []) else FileState.absent

/-- A filesystem with a template file at `templates.yaml` that parses to an
empty YAML mapping. -/
def fsEmptyMapDoc : TemplateFs := fun p =>
  if p = "templates.yaml" then FileState.parsed (.map []) else FileState.absent

/-- A filesystem exposing the loader's failure modes: a document that is a
plain number at `bad.yaml`, unparseable text at `junk.yaml`, nothing
elsewhere. -/
def fsModes : TemplateFs := fun p =>
  if p = "bad.yaml" then FileState.parsed (.int 3)
  else if p = "junk.yaml" then FileState.invalidYaml
  else FileState.absent

/-- The dataset generated in the spec §8 concrete scenario (first prompt
only). -/
def demoDataset : List DatasetEntry := [mkPair "Be kind." "Be cruel." "Hi"]

/-- A session whose registry holds `demoDataset` under the name `d`. -/
def demoShellState : ShellState :=
  { home := "~", packageDir := "/pkg", templateFiles := fun _ => none,
    files := fun _ => none, dirs := [], datasets := [("d", demoDataset)] }

/-- A freshly started session: empty registry. -/
def emptyShellState : ShellState :=
  { home := "~", packageDir := "/pkg", templateFiles := fun _ => none,
    files := fun _ => none, dirs := [], datasets := [] }

/-- A fresh session whose bundled default template file holds the spec §8
concrete scenario record. -/
def wShellState : ShellState :=
  { home := "~", packageDir := "/pkg",
    templateFiles := fun p =>
      if p = "/pkg/dataset_templates/alphapenger.yaml" then
        some [⟨"Be {identity}.", ["Hi"]⟩]
      else none,
    files := fun _ => none, dirs := [], datasets := [] }

/-- The session state after `create_dataset("x", "kind", "cruel")` on
`wShellState`. -/
def wShellStateAfter : ShellState :=
  match shell_create_dataset wShellState "x" "kind" "cruel" none with
  | .ok s => s
  | .error _ => wShellState

/-! ## Lemmas about the format-string model -/

theorem parseFmt_cons_none (c : Char) (rest : List Char) (h1 : c ≠ '{') (h2 : c ≠ '}') :
    parseFmt (c :: rest) none = (parseFmt rest none).map (Seg.lit c :: ·) := by
  simp [parseFmt, h1, h2]

theorem parseFmt_noBraces (l : List Char) (h : ∀ c ∈ l, c ≠ '{' ∧ c ≠ '}') :
    parseFmt l none = .ok (l.map Seg.lit) := by
  induction l with
  | nil => rfl
  | cons c rest ih =>
    have hc := h c (List.mem_cons_self ..)
    rw [parseFmt_cons_none c rest hc.1 hc.2,
      ih fun x hx => h x (List.mem_cons_of_mem _ hx)]
    rfl

theorem renderSegs_lits (l : List Char) (kw : String → Option String) :
    renderSegs (l.map Seg.lit) kw = .ok l := by
  induction l with
  | nil => rfl
  | cons c rest ih => simp [renderSegs, ih, Except.map]

theorem pyFormat_noBraces (t : String) (kw : String → Option String)
    (h : ∀ c ∈ t.data, c ≠ '{' ∧ c ≠ '}') : pyFormat t kw = .ok t := by
  unfold pyFormat
  rw [parseFmt_noBraces t.data h]
  show (renderSegs (t.data.map Seg.lit) kw).map String.mk = .ok t
  rw [renderSegs_lits]
  rfl

theorem renderSegs_identKw_ok (segs : List Seg) (v : String) (cs : List Char)
    (h : renderSegs segs (identKw v) = .ok cs) : cs = flatRender segs v := by
  induction segs generalizing cs with
  | nil =>
    simp only [renderSegs] at h
    injection h with h
    simp [flatRender, h.symm]
  | cons s rest ih =>
    cases s with
    | lit c =>
      cases hr : renderSegs rest (identKw v) with
      | error e => rw [renderSegs, hr] at h; exact absurd h (by simp [Except.map])
      | ok cs2 =>
        rw [renderSegs, hr] at h
        simp only [Except.map] at h
        injection h with h
        simp [flatRender, ← h, ih cs2 hr]
    | field n =>
      rw [renderSegs] at h
      by_cases hd : n.data.all (·.isDigit)
      · rw [if_pos hd] at h; exact absurd h (by simp)
      · rw [if_neg hd] at h
        by_cases hn : n = "identity"
        · have hkw : identKw v n = some v := by simp [identKw, hn]
          rw [hkw] at h
          cases hr : renderSegs rest (identKw v) with
          | error e => rw [hr] at h; exact absurd h (by simp [Except.map])
          | ok cs2 =>
            rw [hr] at h
            simp only [Except.map] at h
            injection h with h
            simp [flatRender, ← h, ih cs2 hr]
        · have hkw : identKw v n = none := by simp [identKw, hn]
          rw [hkw] at h
          exact absurd h (by simp)

theorem flatRender_length (segs : List Seg) (v : String) :
    (flatRender segs v).length = litCount segs + numFields segs * v.data.length := by
  induction segs with
  | nil => simp [flatRender, litCount, numFields]
  | cons s rest ih =>
    cases s with
    | lit c => simp [flatRender, litCount, numFields, ih]; omega
    | field n => simp [flatRender, litCount, numFields, ih]; ring

theorem numFields_pos (segs : List Seg) (n : String) (h : Seg.field n ∈ segs) :
    0 < numFields segs := by
  induction segs with
  | nil => cases h
  | cons s rest ih =>
    cases s with
    | lit c =>
      rcases List.mem_cons.mp h with h1 | h1
      · cases h1
      · simpa [numFields] using ih h1
    | field m => simp [numFields]

theorem flatRender_inj (segs : List Seg) (n : String) (hmem : Seg.field n ∈ segs)
    (a b : String) (h : flatRender segs a = flatRender segs b) : a = b := by
  have hlen : a.data.length = b.data.length := by
    have hl := congrArg List.length h
    rw [flatRender_length, flatRender_length] at hl
    have hnf : 0 < numFields segs := numFields_pos segs n hmem
    exact Nat.eq_of_mul_eq_mul_left hnf (by omega)
  induction segs with
  | nil => cases hmem
  | cons s rest ih =>
    cases s with
    | lit c =>
      simp only [flatRender, List.cons.injEq] at h
      rcases List.mem_cons.mp hmem with h1 | h1
      · cases h1
      · exact ih h1 h.2
    | field m =>
      simp only [flatRender] at h
      have := (List.append_inj h hlen).1
      exact String.ext this

theorem pyFormat_identKw_inj (t a b sa sb : String)
    (hid : hasIdentityField t = true)
    (ha : pyFormat t (identKw a) = .ok sa) (hb : pyFormat t (identKw b) = .ok sb)
    (hab : a ≠ b) : sa ≠ sb := by
  unfold pyFormat at ha hb
  cases hp : parseFmt t.data none with
  | error e =>
    rw [hp] at ha
    exact absurd ha (by simp [Except.bind])
  | ok segs =>
    rw [hp] at ha hb
    have hmem : Seg.field "identity" ∈ segs := by
      unfold hasIdentityField at hid
      rw [hp] at hid
      simpa using hid
    cases hra : renderSegs segs (identKw a) with
    | error e =>
      rw [show (Except.ok segs).bind (fun segs =>
        (renderSegs segs (identKw a)).map String.mk) =
        (renderSegs segs (identKw a)).map String.mk from rfl, hra] at ha
      exact absurd ha (by simp [Except.map])
    | ok csa =>
      cases hrb : renderSegs segs (identKw b) with
      | error e =>
        rw [show (Except.ok segs).bind (fun segs =>
          (renderSegs segs (identKw b)).map String.mk) =
          (renderSegs segs (identKw b)).map String.mk from rfl, hrb] at hb
        exact absurd hb (by simp [Except.map])
      | ok csb =>
        rw [show (Except.ok segs).bind (fun segs =>
          (renderSegs segs (identKw a)).map String.mk) =
          (renderSegs segs (identKw a)).map String.mk from rfl, hra] at ha
        rw [show (Except.ok segs).bind (fun segs =>
          (renderSegs segs (identKw b)).map String.mk) =
          (renderSegs segs (identKw b)).map String.mk from rfl, hrb] at hb
        simp only [Except.map] at ha hb
        injection ha with ha
        injection hb with hb
        intro hcontra
        apply hab
        have ha2 : csa = flatRender segs a := renderSegs_identKw_ok segs a csa hra
        have hb2 : csb = flatRender segs b := renderSegs_identKw_ok segs b csb hrb
        apply flatRender_inj segs "identity" hmem
        rw [← ha2, ← hb2]
        rw [← ha, ← hb] at hcontra
        exact congrArg String.data hcontra

theorem renderSegs_ok_of_identity (segs : List Seg) (v : String)
    (h : ∀ n, Seg.field n ∈ segs → n = "identity") :
    ∃ cs, renderSegs segs (identKw v) = .ok cs := by
  induction segs with
  | nil => exact ⟨[], rfl⟩
  | cons s rest ih =>
    obtain ⟨cs, hcs⟩ := ih fun n hn => h n (List.mem_cons_of_mem _ hn)
    cases s with
    | lit c => exact ⟨c :: cs, by rw [renderSegs, hcs]; rfl⟩
    | field n =>
      have hn : n = "identity" := h n (List.mem_cons_self ..)
      subst hn
      refine ⟨v.data ++ cs, ?_⟩
      rw [renderSegs, if_neg (by decide),
        show identKw v "identity" = some v from by simp [identKw], hcs]
      rfl

theorem fieldsOk_mem (t : String) (h : templateFieldsOk t = true) :
    ∃ segs, parseFmt t.data none = .ok segs ∧ ∀ n, Seg.field n ∈ segs → n = "identity" := by
  unfold templateFieldsOk at h
  cases hp : parseFmt t.data none with
  | error e => rw [hp] at h; cases h
  | ok segs =>
    rw [hp] at h
    refine ⟨segs, rfl, fun n hn => ?_⟩
    have := List.all_eq_true.mp h _ hn
    simpa using this

theorem pyFormat_ok_of_fieldsOk (t v : String) (h : templateFieldsOk t = true) :
    ∃ s, pyFormat t (identKw v) = .ok s := by
  obtain ⟨segs, hp, hall⟩ := fieldsOk_mem t h
  obtain ⟨cs, hcs⟩ := renderSegs_ok_of_identity segs v hall
  refine ⟨String.mk cs, ?_⟩
  unfold pyFormat
  rw [hp]
  show (renderSegs segs (identKw v)).map String.mk = _
  rw [hcs]
  rfl

theorem create_cons_ok (t : TemplateRecord) (rest : List TemplateRecord) (a b : String)
    (es : List DatasetEntry) (h : create_prompts_records (t :: rest) a b = .ok es) :
    ∃ s1 s2 tail, pyFormat t.system_template (identKw a) = .ok s1 ∧
      pyFormat t.system_template (identKw b) = .ok s2 ∧
      create_prompts_records rest a b = .ok tail ∧
      es = t.prompts.map (fun p => mkPair s1 s2 p) ++ tail := by
  rw [create_prompts_records] at h
  cases h1 : pyFormat t.system_template (identKw a) with
  | error e1 => rw [h1] at h; exact absurd h (by simp [Bind.bind, Except.bind])
  | ok s1 =>
    rw [h1] at h
    simp only [Bind.bind, Except.bind] at h
    cases h2 : pyFormat t.system_template (identKw b) with
    | error e2 => rw [h2] at h; exact absurd h (by simp)
    | ok s2 =>
      rw [h2] at h
      cases h3 : create_prompts_records rest a b with
      | error e3 => rw [h3] at h; exact absurd h (by simp)
      | ok tail =>
        rw [h3] at h
        injection h with h
        exact ⟨s1, s2, tail, rfl, rfl, rfl, h.symm⟩

theorem create_mem (recs : List TemplateRecord) (a b : String) (es : List DatasetEntry)
    (h : create_prompts_records recs a b = .ok es) (e : DatasetEntry) (he : e ∈ es) :
    ∃ r, r ∈ recs ∧ ∃ p, p ∈ r.prompts ∧ ∃ s1 s2,
      pyFormat r.system_template (identKw a) = .ok s1 ∧
      pyFormat r.system_template (identKw b) = .ok s2 ∧ e = mkPair s1 s2 p := by
  induction recs generalizing es with
  | nil =>
    rw [create_prompts_records] at h
    injection h with h
    subst h
    cases he
  | cons t rest ih =>
    obtain ⟨s1, s2, tail, h1, h2, h3, hes⟩ := create_cons_ok t rest a b es h
    subst hes
    rcases List.mem_append.mp he with hl | hr
    · obtain ⟨p, hp, hpe⟩ := List.mem_map.mp hl
      exact ⟨t, List.mem_cons_self .., p, hp, s1, s2, h1, h2, hpe.symm⟩
    · obtain ⟨r, hr1, rest_p⟩ := ih tail h3 hr
      exact ⟨r, List.mem_cons_of_mem _ hr1, rest_p⟩

theorem turnContent_mkPair_a1 (s1 s2 p : String) : turnContent (mkPair s1 s2 p).a 1 = some p := rfl

theorem turnContent_mkPair_b1 (s1 s2 p : String) : turnContent (mkPair s1 s2 p).b 1 = some p := rfl

theorem turnContent_mkPair_a0 (s1 s2 p : String) : turnContent (mkPair s1 s2 p).a 0 = some s1 := rfl

theorem turnContent_mkPair_b0 (s1 s2 p : String) : turnContent (mkPair s1 s2 p).b 0 = some s2 := rfl

theorem create_shape (recs : List TemplateRecord) (a b : String) (es : List DatasetEntry)
    (h : create_prompts_records recs a b = .ok es) :
    es.map (fun e => turnContent e.a 1) = ((recs.map fun r => r.prompts).flatten).map some ∧
    es.length = (recs.map fun r => r.prompts.length).sum := by
  induction recs generalizing es with
  | nil =>
    rw [create_prompts_records] at h
    injection h with h
    subst h
    simp
  | cons t rest ih =>
    obtain ⟨s1, s2, tail, _, _, h3, hes⟩ := create_cons_ok t rest a b es h
    subst hes
    obtain ⟨ihm, ihl⟩ := ih tail h3
    constructor
    · rw [List.map_append, ihm, List.map_cons, List.flatten_cons, List.map_append, List.map_map]
      congr 1
    · simp [ihl]

theorem create_ok_of_fieldsOk (recs : List TemplateRecord) (a b : String)
    (h : ∀ r ∈ recs, templateFieldsOk r.system_template = true) :
    ∃ es, create_prompts_records recs a b = .ok es := by
  induction recs with
  | nil => exact ⟨[], rfl⟩
  | cons t rest ih =>
    obtain ⟨tail, htail⟩ := ih fun r hr => h r (List.mem_cons_of_mem _ hr)
    have ht := h t (List.mem_cons_self ..)
    obtain ⟨s1, h1⟩ := pyFormat_ok_of_fieldsOk t.system_template a ht
    obtain ⟨s2, h2⟩ := pyFormat_ok_of_fieldsOk t.system_template b ht
    refine ⟨t.prompts.map (fun p => mkPair s1 s2 p) ++ tail, ?_⟩
    rw [create_prompts_records, h1]
    simp only [Bind.bind, Except.bind]
    rw [h2, htail]

theorem renderSegs_badfield (segs : List Seg) (v : String) (n : String)
    (hmem : Seg.field n ∈ segs) (hn : n ≠ "identity") :
    ∃ e, renderSegs segs (identKw v) = .error e := by
  induction segs with
  | nil => cases hmem
  | cons s rest ih =>
    cases s with
    | lit c =>
      rcases List.mem_cons.mp hmem with h1 | h1
      · cases h1
      · obtain ⟨e, he⟩ := ih h1
        exact ⟨e, by rw [renderSegs, he]; rfl⟩
    | field m =>
      by_cases hd : m.data.all (·.isDigit)
      · exact ⟨.indexError, by rw [renderSegs, if_pos hd]⟩
      · by_cases hm : m = "identity"
        · have h1 : Seg.field n ∈ rest := by
            rcases List.mem_cons.mp hmem with h2 | h2
            · injection h2 with h2
              exact absurd (h2.trans hm) hn
            · exact h2
          obtain ⟨e, he⟩ := ih h1
          refine ⟨e, ?_⟩
          rw [renderSegs, if_neg hd, show identKw v m = some v from by simp [identKw, hm], he]
          rfl
        · exact ⟨.keyErrorE m, by
            rw [renderSegs, if_neg hd, show identKw v m = none from by simp [identKw, hm]]⟩

theorem pyFormat_badfield (t : String) (segs : List Seg) (n : String) (v : String)
    (hp : parseFmt t.data none = .ok segs)
    (hmem : Seg.field n ∈ segs) (hn : n ≠ "identity") :
    ∃ e, pyFormat t (identKw v) = .error e := by
  obtain ⟨e, he⟩ := renderSegs_badfield segs v n hmem hn
  refine ⟨e, ?_⟩
  unfold pyFormat
  rw [hp]
  show (renderSegs segs (identKw v)).map String.mk = _
  rw [he]
  rfl

/-! ## Claim theorems for the prompt pair generator -/

/-- **C1, counterexample**: a template whose `system_template` has no
substitution placeholder does *not* make `create_personality_prompts` fail;
the call succeeds and returns an entry whose A and B system messages are the
unmodified template — exactly what the claim asserts never happens. -/
theorem create_missing_placeholder_counterexample :
    ("kind" : String) ≠ "cruel" ∧
    create_prompts_records [⟨"Be nice.", ["Hi"]⟩] "kind" "cruel" =
      .ok [⟨[⟨"system", "Be nice."⟩, ⟨"user", "Hi"⟩],
           [⟨"system", "Be nice."⟩, ⟨"user", "Hi"⟩]⟩] := by
  exact ⟨by decide, by decide⟩

/-- **C1, amended**: for a template record whose `system_template` contains no
brace character (hence no substitution placeholder), the generator does not
fail: it emits, for each prompt, an entry whose A and B system messages are
identical unmodified copies of the template. -/
theorem create_missing_placeholder_silent (t : String) (ps : List String) (a b : String)
    (h : ∀ c ∈ t.data, c ≠ '{' ∧ c ≠ '}') :
    create_prompts_records [⟨t, ps⟩] a b = .ok (ps.map fun p => mkPair t t p) := by
  rw [create_prompts_records, pyFormat_noBraces t _ h]
  simp only [Bind.bind, Except.bind]
  rw [pyFormat_noBraces t _ h, create_prompts_records]
  simp

/-- Witness for the amended C1 at the concrete placeholder-free template. -/
theorem create_missing_placeholder_silent_witness :
    create_prompts_records [⟨"Be nice.", ["Hi"]⟩] "kind" "cruel" =
      .ok [mkPair "Be nice." "Be nice." "Hi"] :=
  create_missing_placeholder_silent "Be nice." ["Hi"] "kind" "cruel" (by decide)

/-- **C2, counterexample**: with distinct traits but a placeholder-free
template, the generator produces an entry whose A and B system contents are
equal, refuting the unconditional pairing claim. -/
theorem pairing_counterexample :
    ("kind" : String) ≠ "cruel" ∧
    create_prompts_records [⟨"Be nice.", ["Hi"]⟩] "kind" "cruel" =
      .ok [mkPair "Be nice." "Be nice." "Hi"] ∧
    turnContent (mkPair "Be nice." "Be nice." "Hi").a 0 =
      turnContent (mkPair "Be nice." "Be nice." "Hi").b 0 := by
  exact ⟨by decide, by decide, rfl⟩

/-- **C2, amended**: every produced entry has equal A/B user contents, and
when the traits differ *and every record's template contains the `{identity}`
placeholder* the A/B system contents differ. -/
theorem pairing_invariant (recs : List TemplateRecord) (a b : String)
    (es : List DatasetEntry) (h : create_prompts_records recs a b = .ok es) :
    (∀ e ∈ es, turnContent e.a 1 = turnContent e.b 1) ∧
    (a ≠ b → (∀ r ∈ recs, hasIdentityField r.system_template = true) →
      ∀ e ∈ es, turnContent e.a 0 ≠ turnContent e.b 0) := by
  constructor
  · intro e he
    obtain ⟨r, _, p, _, s1, s2, _, _, hpe⟩ := create_mem recs a b es h e he
    subst hpe
    rw [turnContent_mkPair_a1, turnContent_mkPair_b1]
  · intro hab hall e he
    obtain ⟨r, hr, p, _, s1, s2, h1, h2, hpe⟩ := create_mem recs a b es h e he
    subst hpe
    rw [turnContent_mkPair_a0, turnContent_mkPair_b0]
    intro hc
    injection hc with hc
    exact pyFormat_identKw_inj r.system_template a b s1 s2 (hall r hr) h1 h2 hab hc

/-- Witness for the amended C2 at the spec §8 concrete scenario. -/
theorem pairing_invariant_witness :
    turnContent (mkPair "Be kind." "Be cruel." "Hi").a 1 =
      turnContent (mkPair "Be kind." "Be cruel." "Hi").b 1 ∧
    turnContent (mkPair "Be kind." "Be cruel." "Hi").a 0 ≠
      turnContent (mkPair "Be kind." "Be cruel." "Hi").b 0 := by
  obtain ⟨hu, hs⟩ := pairing_invariant [⟨"Be {identity}.", ["Hi"]⟩] "kind" "cruel"
    [mkPair "Be kind." "Be cruel." "Hi"] (by decide)
  exact ⟨hu _ (List.mem_cons_self ..),
    hs (by decide) (by decide) _ (List.mem_cons_self ..)⟩

/-- **C3**: whenever the generator returns, the entry count is the sum of the
records' prompt counts and the user contents are the prompts in
template-then-within-template order; and on records whose templates are
well-formed (every replacement field is `{identity}`) it does return — in
particular a record with an empty prompt list contributes zero entries and no
error. -/
theorem count_and_order_law :
    (∀ recs a b es, create_prompts_records recs a b = .ok es →
      es.length = (recs.map fun r => r.prompts.length).sum ∧
      es.map (fun e => turnContent e.a 1) = ((recs.map fun r => r.prompts).flatten).map some) ∧
    (∀ recs a b, (∀ r ∈ recs, templateFieldsOk r.system_template = true) →
      ∃ es, create_prompts_records recs a b = .ok es) := by
  constructor
  · intro recs a b es h
    obtain ⟨hm, hl⟩ := create_shape recs a b es h
    exact ⟨hl, hm⟩
  · intro recs a b h
    exact create_ok_of_fieldsOk recs a b h

/-- Witness for C3, with a second record whose prompt list is empty. -/
theorem count_and_order_law_witness :
    [mkPair "Be kind." "Be cruel." "Hi", mkPair "Be kind." "Be cruel." "Yo"].length =
      ([⟨"Be {identity}.", ["Hi", "Yo"]⟩,
        (⟨"Stay {identity}!", []⟩ : TemplateRecord)].map fun r => r.prompts.length).sum ∧
    (create_prompts_records [⟨"Be {identity}.", ["Hi", "Yo"]⟩,
      ⟨"Stay {identity}!", []⟩] "kind" "cruel").isOk = true := by
  constructor
  · exact (count_and_order_law.1 [⟨"Be {identity}.", ["Hi", "Yo"]⟩,
      ⟨"Stay {identity}!", []⟩] "kind" "cruel"
      [mkPair "Be kind." "Be cruel." "Hi", mkPair "Be kind." "Be cruel." "Yo"] (by decide)).1
  · obtain ⟨es, hes⟩ := count_and_order_law.2 [⟨"Be {identity}.", ["Hi", "Yo"]⟩,
      ⟨"Stay {identity}!", []⟩] "kind" "cruel" (by decide)
    rw [hes]
    rfl

/-- **C9**: the whole pipeline is deterministic — two runs over template files
with identical (parsed) content and the same trait strings return structurally
identical results; nothing else (randomness, time, environment) enters the
computation. -/
theorem create_personality_prompts_deterministic (fs1 fs2 : TemplateFs)
    (p1 p2 a b : String) (h : fs1 p1 = fs2 p2) :
    create_personality_prompts fs1 p1 a b = create_personality_prompts fs2 p2 a b := by
  unfold create_personality_prompts load_yaml_template
  rw [h]

/-- Witness for C9: two different filesystems and paths with equal file
content. -/
theorem create_personality_prompts_deterministic_witness :
    create_personality_prompts fsAlpha "any.yaml" "kind" "cruel" =
      create_personality_prompts fsBeta "alpha.yaml" "kind" "cruel" :=
  create_personality_prompts_deterministic fsAlpha fsBeta "any.yaml" "alpha.yaml"
    "kind" "cruel" (by simp [fsAlpha, fsBeta])

/-- **C10**: a record whose template contains a named replacement field other
than `identity` (for instance `{foo}`) makes the generator raise during
substitution; no entry list is returned at all. -/
theorem foreign_placeholder_raises (recs : List TemplateRecord) (r : TemplateRecord)
    (segs : List Seg) (n : String) (a b : String)
    (hr : r ∈ recs)
    (hp : parseFmt r.system_template.data none = .ok segs)
    (hmem : Seg.field n ∈ segs) (hn : n ≠ "identity") :
    (create_prompts_records recs a b).isOk = false := by
  have hfa : ∃ e, pyFormat r.system_template (identKw a) = .error e :=
    pyFormat_badfield r.system_template segs n a hp hmem hn
  induction recs with
  | nil => cases hr
  | cons t rest ih =>
    rcases List.mem_cons.mp hr with h1 | h1
    · obtain ⟨e, he⟩ := hfa
      rw [create_prompts_records, ← h1, he]
      rfl
    · cases h2 : pyFormat t.system_template (identKw a) with
      | error e => rw [create_prompts_records, h2]; rfl
      | ok s1 =>
        cases h3 : pyFormat t.system_template (identKw b) with
        | error e =>
          rw [create_prompts_records, h2]
          simp only [Bind.bind, Except.bind]
          rw [h3]
          rfl
        | ok s2 =>
          cases h4 : create_prompts_records rest a b with
          | error e =>
            rw [create_prompts_records, h2]
            simp only [Bind.bind, Except.bind]
            rw [h3, h4]
            rfl
          | ok tail =>
            have hih := ih h1
            rw [h4] at hih
            exact absurd hih (by simp [Except.isOk, Except.toBool])

/-- Witness for C10 at the template `Be {foo}.`. -/
theorem foreign_placeholder_raises_witness :
    (create_prompts_records [⟨"Be {foo}.", ["Hi"]⟩] "kind" "cruel").isOk = false :=
  foreign_placeholder_raises [⟨"Be {foo}.", ["Hi"]⟩] ⟨"Be {foo}.", ["Hi"]⟩
    [.lit 'B', .lit 'e', .lit ' ', .field "foo", .lit '.'] "foo" "kind" "cruel"
    (by decide) (by decide) (by decide) (by decide)

/-! ## Claim theorems for the session -/

/-- **C5, the code at the failing input**: with the dataset generated from the
spec §8 concrete scenario registered under `d`, `train_vector` evaluates
`dataset[0].a_trait` on a plain dict (items `a`/`b` only, no `a_trait`
attribute), raises `AttributeError`, and never calls the manager — the
delegation the claim describes cannot succeed for any generated dataset. -/
theorem train_vector_attribute_error :
    create_prompts_records [⟨"Be {identity}.", ["Hi"]⟩] "kind" "cruel" = .ok demoDataset ∧
    train_vector demoShellState "v" "d" =
      (demoShellState, [], .raised .attributeError) := by
  exact ⟨by decide, rfl⟩

/-- **C6**: `train_vector` on a dataset name absent from the registry reports
the not-found failure, makes no manager call, and returns the session state
unchanged. -/
theorem train_vector_not_found (st : ShellState) (v ds : String)
    (h : lookupDataset st.datasets ds = none) :
    train_vector st v ds = (st, [], .notFoundReported) := by
  unfold train_vector
  rw [h]

/-- Witness for C6 on a fresh session. -/
theorem train_vector_not_found_witness :
    train_vector emptyShellState "v" "missing" = (emptyShellState, [], .notFoundReported) :=
  train_vector_not_found emptyShellState "v" "missing" rfl

/-! ## Error analysis of the untyped template pipeline (C7) -/

theorem except_map_error_iff {α β γ : Type} (f : α → β) (x : Except γ α) (e : γ) :
    x.map f = .error e ↔ x = .error e := by
  cases x <;> simp [Except.map]

theorem parseFmt_err (l : List Char) (m : Option (List Char)) (e : PyErr)
    (h : parseFmt l m = .error e) : e = .valueError := by
  induction l, m using parseFmt.induct generalizing e <;>
    simp_all [parseFmt, except_map_error_iff]

theorem renderSegs_err (segs : List Seg) (kw : String → Option String) (e : PyErr)
    (h : renderSegs segs kw = .error e) : templateFormatClass e = true := by
  induction segs with
  | nil => exact absurd h (by simp [renderSegs])
  | cons s rest ih =>
    cases s with
    | lit c =>
      rw [renderSegs, except_map_error_iff] at h
      exact ih h
    | field n =>
      rw [renderSegs] at h
      by_cases hd : n.data.all (·.isDigit)
      · rw [if_pos hd] at h
        injection h with h
        subst h
        rfl
      · rw [if_neg hd] at h
        cases hkw : kw n with
        | some v =>
          rw [hkw] at h
          replace h : (renderSegs rest kw).map (fun x => v.data ++ x) = .error e := h
          rw [except_map_error_iff] at h
          exact ih h
        | none =>
          rw [hkw] at h
          injection h with h
          subst h
          rfl

theorem pyFormat_err (t : String) (kw : String → Option String) (e : PyErr)
    (h : pyFormat t kw = .error e) : templateFormatClass e = true := by
  unfold pyFormat at h
  cases hp : parseFmt t.data none with
  | error e2 =>
    rw [hp] at h
    replace h : (Except.error e2 : Except PyErr String) = .error e := h
    injection h with h
    subst h
    rw [parseFmt_err t.data none e2 hp]
    rfl
  | ok segs =>
    rw [hp] at h
    replace h : (renderSegs segs kw).map String.mk = .error e := h
    cases hr : renderSegs segs kw with
    | error e2 =>
      rw [hr] at h
      replace h : (Except.error e2 : Except PyErr String) = .error e := h
      injection h with h
      subst h
      exact renderSegs_err segs kw e2 hr
    | ok cs =>
      rw [hr] at h
      exact absurd h (by simp [Except.map])

theorem pyFormatVal_err (v : Yaml) (kw : String → Option String) (e : PyErr)
    (h : pyFormatVal v kw = .error e) : templateFormatClass e = true := by
  cases v with
  | str s => exact pyFormat_err s kw e h
  | null => injection h with h; subst h; rfl
  | bool b => injection h with h; subst h; rfl
  | int n => injection h with h; subst h; rfl
  | list items => injection h with h; subst h; rfl
  | map kvs => injection h with h; subst h; rfl

theorem pySubscript_err (y : Yaml) (k : String) (e : PyErr)
    (h : pySubscript y k = .error e) : templateFormatClass e = true := by
  cases y with
  | map kvs =>
    rw [pySubscript] at h
    cases hl : yamlLookup kvs k with
    | some v => rw [hl] at h; exact absurd h (by simp)
    | none => rw [hl] at h; injection h with h; subst h; rfl
  | null => injection h with h; subst h; rfl
  | bool b => injection h with h; subst h; rfl
  | int n => injection h with h; subst h; rfl
  | str s => injection h with h; subst h; rfl
  | list items => injection h with h; subst h; rfl

theorem pyIter_err (y : Yaml) (e : PyErr) (h : pyIter y = .error e) :
    templateFormatClass e = true := by
  cases y with
  | null => injection h with h; subst h; rfl
  | bool b => injection h with h; subst h; rfl
  | int n => injection h with h; subst h; rfl
  | str s => exact absurd h (by simp [pyIter])
  | list items => exact absurd h (by simp [pyIter])
  | map kvs => exact absurd h (by simp [pyIter])

theorem go_err_of_badrecord (items : List Yaml) (a b : String)
    (hbad : ∃ it ∈ items, ¬ RecordConforms it) :
    ∃ e, create_prompts_doc_go items a b = .error e ∧ templateFormatClass e = true := by
  induction items with
  | nil =>
    obtain ⟨it, hm, _⟩ := hbad
    cases hm
  | cons t rest ih =>
    cases h1 : pySubscript t "system_template" with
    | error e1 =>
      refine ⟨e1, ?_, pySubscript_err t _ e1 h1⟩
      rw [create_prompts_doc_go]
      simp only [Bind.bind, Except.bind, h1]
    | ok st =>
      cases h2 : pySubscript t "prompts" with
      | error e2 =>
        refine ⟨e2, ?_, pySubscript_err t _ e2 h2⟩
        rw [create_prompts_doc_go]
        simp only [Bind.bind, Except.bind, h1, h2]
      | ok up =>
        cases h3 : pyFormatVal st (identKw a) with
        | error e3 =>
          refine ⟨e3, ?_, pyFormatVal_err st _ e3 h3⟩
          rw [create_prompts_doc_go]
          simp only [Bind.bind, Except.bind, h1, h2, h3]
        | ok s1 =>
          cases h4 : pyFormatVal st (identKw b) with
          | error e4 =>
            refine ⟨e4, ?_, pyFormatVal_err st _ e4 h4⟩
            rw [create_prompts_doc_go]
            simp only [Bind.bind, Except.bind, h1, h2, h3, h4]
          | ok s2 =>
            cases h5 : pyIter up with
            | error e5 =>
              refine ⟨e5, ?_, pyIter_err up e5 h5⟩
              rw [create_prompts_doc_go]
              simp only [Bind.bind, Except.bind, h1, h2, h3, h4, h5]
            | ok ups =>
              have hconf : RecordConforms t := by
                cases t with
                | map kvs =>
                  refine ⟨kvs, rfl, ?_, ?_⟩
                  · rw [pySubscript] at h1
                    cases hl : yamlLookup kvs "system_template" with
                    | some v => simp [hl]
                    | none => rw [hl] at h1; exact absurd h1 (by simp)
                  · rw [pySubscript] at h2
                    cases hl : yamlLookup kvs "prompts" with
                    | some v => simp [hl]
                    | none => rw [hl] at h2; exact absurd h2 (by simp)
                | null => exact absurd h1 (by simp [pySubscript])
                | bool b2 => exact absurd h1 (by simp [pySubscript])
                | int n => exact absurd h1 (by simp [pySubscript])
                | str s => exact absurd h1 (by simp [pySubscript])
                | list its => exact absurd h1 (by simp [pySubscript])
              obtain ⟨it, hm, hnc⟩ := hbad
              have hit : it ∈ rest := by
                rcases List.mem_cons.mp hm with hh | hh
                · subst hh
                  exact absurd hconf hnc
                · exact hh
              obtain ⟨e, he, hc⟩ := ih ⟨it, hit, hnc⟩
              refine ⟨e, ?_, hc⟩
              rw [create_prompts_doc_go]
              simp only [Bind.bind, Except.bind, h1, h2, h3, h4, h5, he]

/-- **C7, counterexample**: a template file parsing to an empty YAML mapping —
not a sequence of mappings — does not fail at all: the loader returns it, the
generation loop iterates its zero keys, and the call silently returns the
empty dataset. -/
theorem template_format_counterexample :
    ¬ DocConforms (.map []) ∧
    create_personality_prompts fsEmptyMapDoc "templates.yaml" "kind" "cruel" = .ok [] := by
  constructor
  · intro hconf
    obtain ⟨items, h, _⟩ := hconf
    exact Yaml.noConfusion h
  · rfl

/-- **C7, amended**: the pipeline fails with `NotFoundError` when the path
does not exist; it fails with a `TemplateFormatError`-class error when the
file is unparseable, and when the parsed document is not a sequence of
mappings carrying both required keys — except that a document iterating to
nothing (the empty string, the empty mapping) silently yields an empty
dataset. -/
theorem template_failure_modes (fs : TemplateFs) (path a b : String) :
    (fs path = .absent →
      create_personality_prompts fs path a b = .error .fileNotFoundError) ∧
    (fs path = .invalidYaml →
      create_personality_prompts fs path a b = .error .yamlError) ∧
    (∀ doc, fs path = .parsed doc → ¬ DocConforms doc →
      doc ≠ .str "" → doc ≠ .map [] →
      failsWithTemplateFormatError (create_personality_prompts fs path a b)) := by
  refine ⟨?_, ?_, ?_⟩
  · intro h
    unfold create_personality_prompts load_yaml_template
    rw [h]
    rfl
  · intro h
    unfold create_personality_prompts load_yaml_template
    rw [h]
    rfl
  · intro doc h hnc hs hm
    unfold create_personality_prompts load_yaml_template
    rw [h]
    show failsWithTemplateFormatError (create_prompts_doc doc a b)
    cases doc with
    | null => exact rfl
    | bool b2 => exact rfl
    | int n => exact rfl
    | str s =>
      cases hs2 : s.data with
      | nil =>
        refine absurd ?_ hs
        have : s = "" := String.ext (by rw [hs2])
        rw [this]
      | cons c cs =>
        have hcompute : create_prompts_doc (.str s) a b = .error .typeError := by
          unfold create_prompts_doc pyIter
          show create_prompts_doc_go (s.data.map fun c => .str (String.mk [c])) a b =
            .error .typeError
          rw [hs2, List.map_cons, create_prompts_doc_go]
          rfl
        rw [hcompute]
        exact rfl
    | map kvs =>
      cases kvs with
      | nil => exact absurd rfl hm
      | cons kv rest =>
        have hcompute : create_prompts_doc (.map (kv :: rest)) a b = .error .typeError := by
          unfold create_prompts_doc pyIter
          show create_prompts_doc_go ((kv :: rest).map fun kv => Yaml.str kv.1) a b =
            .error .typeError
          rw [List.map_cons, create_prompts_doc_go]
          rfl
        rw [hcompute]
        exact rfl
    | list items =>
      have hbad : ∃ it ∈ items, ¬ RecordConforms it := by
        by_contra hno
        push_neg at hno
        exact hnc ⟨items, rfl, hno⟩
      obtain ⟨e, he, hc⟩ := go_err_of_badrecord items a b hbad
      have hcompute : create_prompts_doc (.list items) a b = .error e := by
        unfold create_prompts_doc pyIter
        exact he
      rw [hcompute]
      exact hc

/-- Witness for the amended C7 at the three concrete failure modes. -/
theorem template_failure_modes_witness :
    create_personality_prompts fsModes "missing.yaml" "a" "b" = .error .fileNotFoundError ∧
    create_personality_prompts fsModes "junk.yaml" "a" "b" = .error .yamlError ∧
    failsWithTemplateFormatError (create_personality_prompts fsModes "bad.yaml" "a" "b") := by
  refine ⟨(template_failure_modes fsModes "missing.yaml" "a" "b").1 rfl,
    (template_failure_modes fsModes "junk.yaml" "a" "b").2.1 rfl,
    (template_failure_modes fsModes "bad.yaml" "a" "b").2.2 (.int 3) rfl ?_ ?_ ?_⟩
  · intro hconf
    obtain ⟨items, hh, _⟩ := hconf
    exact Yaml.noConfusion hh
  · intro hh
    exact Yaml.noConfusion hh
  · intro hh
    exact Yaml.noConfusion hh

/-! ## Round-trip of the dataset serialiser (C4, C8) -/

theorem char_nat_valid (c : Char) :
    c.toNat < 55296 ∨ (57344 ≤ c.toNat ∧ c.toNat < 1114112) := by
  have h : c.val.toNat.isValidChar := c.valid
  unfold Nat.isValidChar at h
  unfold Char.toNat
  omega

theorem readHexDigit_hexDigitChar (d : Nat) (h : d < 16) :
    readHexDigit (hexDigitChar d) = some d := by
  interval_cases d <;> decide

theorem readHex4_hex4 (n : Nat) (h : n < 65536) :
    readHex4 (hexDigitChar (n / 4096 % 16)) (hexDigitChar (n / 256 % 16))
      (hexDigitChar (n / 16 % 16)) (hexDigitChar (n % 16)) = some n := by
  unfold readHex4
  rw [readHexDigit_hexDigitChar _ (Nat.mod_lt _ (by omega)),
    readHexDigit_hexDigitChar _ (Nat.mod_lt _ (by omega)),
    readHexDigit_hexDigitChar _ (Nat.mod_lt _ (by omega)),
    readHexDigit_hexDigitChar _ (Nat.mod_lt _ (by omega))]
  simp only [Bind.bind, Option.bind]
  congr 1
  omega

theorem readStringChar_u (x1 x2 x3 x4 : Char) (r : List Char) :
    readStringChar ('\\' :: 'u' :: x1 :: x2 :: x3 :: x4 :: r) =
      match readHex4 x1 x2 x3 x4 with
      | none => .bad
      | some n =>
        if 55296 ≤ n ∧ n < 56320 then
          match r with
          | s1 :: u1 :: d1 :: d2 :: d3 :: d4 :: r2 =>
            if s1 = '\\' ∧ u1 = 'u' then
              match readHex4 d1 d2 d3 d4 with
              | none => .bad
              | some n2 =>
                if 56320 ≤ n2 ∧ n2 < 57344 then
                  .chr (Char.ofNat (65536 + 1024 * (n - 55296) + (n2 - 56320))) r2
                else .bad
            else .bad
          | _ => .bad
        else if 56320 ≤ n ∧ n < 57344 then .bad
        else .chr (Char.ofNat n) r := rfl

theorem readStringChar_escapeChar (c : Char) (tail : List Char) :
    readStringChar (escapeChar c ++ tail) = .chr c tail := by
  unfold escapeChar
  by_cases h1 : c = '"'
  · subst h1; rw [if_pos rfl]; rfl
  rw [if_neg h1]
  by_cases h2 : c = '\\'
  · subst h2; rw [if_pos rfl]; rfl
  rw [if_neg h2]
  by_cases h3 : c = '\n'
  · subst h3; rw [if_pos rfl]; rfl
  rw [if_neg h3]
  by_cases h4 : c = '\t'
  · subst h4; rw [if_pos rfl]; rfl
  rw [if_neg h4]
  by_cases h5 : c = '\r'
  · subst h5; rw [if_pos rfl]; rfl
  rw [if_neg h5]
  by_cases h6 : c = Char.ofNat 8
  · subst h6; rw [if_pos rfl]; rfl
  rw [if_neg h6]
  by_cases h7 : c = Char.ofNat 12
  · subst h7; rw [if_pos rfl]; rfl
  rw [if_neg h7]
  by_cases h8 : c.toNat < 32 ∨ 127 ≤ c.toNat
  · rw [if_pos h8]
    have hv := char_nat_valid c
    by_cases h9 : c.toNat < 65536
    · rw [if_pos h9, hex4]
      simp only [List.cons_append, List.nil_append]
      rw [readStringChar_u, readHex4_hex4 c.toNat h9]
      have g1 : ¬(55296 ≤ c.toNat ∧ c.toNat < 56320) := by omega
      have g2 : ¬(56320 ≤ c.toNat ∧ c.toNat < 57344) := by omega
      try dsimp only
      rw [if_neg g1, if_neg g2, Char.ofNat_toNat]
    · rw [if_neg h9, hex4, hex4]
      simp only [List.cons_append, List.nil_append, List.append_assoc]
      rw [readStringChar_u,
        readHex4_hex4 (55296 + (c.toNat - 65536) / 1024) (by omega)]
      try dsimp only
      rw [if_pos (by constructor <;> omega :
        55296 ≤ 55296 + (c.toNat - 65536) / 1024 ∧ 55296 + (c.toNat - 65536) / 1024 < 56320)]
      try dsimp only
      rw [if_pos (by exact ⟨rfl, rfl⟩ : ('\\' : Char) = '\\' ∧ ('u' : Char) = 'u'),
        readHex4_hex4 (56320 + (c.toNat - 65536) % 1024) (by omega)]
      try dsimp only
      rw [if_pos (by constructor <;> omega :
        56320 ≤ 56320 + (c.toNat - 65536) % 1024 ∧ 56320 + (c.toNat - 65536) % 1024 < 57344)]
      have harith : 65536 + 1024 * (55296 + (c.toNat - 65536) / 1024 - 55296) +
          (56320 + (c.toNat - 65536) % 1024 - 56320) = c.toNat := by omega
      rw [harith, Char.ofNat_toNat]
  · rw [if_neg h8]
    show readStringChar (c :: tail) = .chr c tail
    rw [readStringChar.eq_def]
    dsimp only
    rw [if_neg h1, if_neg h2]

theorem one_le_escapeChar_length (c : Char) : 1 ≤ (escapeChar c).length := by
  unfold escapeChar
  split_ifs <;> simp [hex4]

theorem length_le_flatMap_escapeChar (s : List Char) :
    s.length ≤ (s.flatMap escapeChar).length := by
  induction s with
  | nil => simp
  | cons c cs ih =>
    rw [List.flatMap_cons, List.length_append]
    have := one_le_escapeChar_length c
    simp only [List.length_cons]
    omega

theorem parseStrLoop_encode (s : List Char) (tail : List Char) (fuel : Nat)
    (hf : s.length < fuel) :
    parseStrLoop fuel (s.flatMap escapeChar ++ '"' :: tail) = some (s, tail) := by
  induction s generalizing fuel with
  | nil =>
    cases fuel with
    | zero => omega
    | succ f =>
      rw [List.flatMap_nil, List.nil_append]
      simp only [parseStrLoop]
      rw [show readStringChar ('"' :: tail) = .close tail from rfl]
  | cons c cs ih =>
    cases fuel with
    | zero => simp at hf
    | succ f =>
      rw [List.flatMap_cons, List.append_assoc]
      simp only [parseStrLoop]
      rw [readStringChar_escapeChar c]
      dsimp only
      rw [ih f (by simp only [List.length_cons] at hf; omega)]
      rfl

theorem parseJsonString_encode (s : String) (rest : List Char) :
    parseJsonString (encodeString s ++ rest) = some (s, rest) := by
  unfold encodeString parseJsonString
  rw [List.cons_append]
  dsimp only
  rw [if_pos rfl,
    show (s.data.flatMap escapeChar ++ ['"']) ++ rest =
      s.data.flatMap escapeChar ++ '"' :: rest from by simp,
    parseStrLoop_encode s.data rest _ (by
      have := length_le_flatMap_escapeChar s.data
      simp only [List.length_append, List.length_cons]
      omega)]
  rfl

theorem expectLit_append (pre rest : List Char) : expectLit pre (pre ++ rest) = some rest := by
  induction pre with
  | nil => rfl
  | cons c cs ih => simp [expectLit, ih]

theorem parseMessage_encode (m : Message) (rest : List Char) :
    parseMessage (encodeMessage m ++ rest) = some (m, rest) := by
  unfold parseMessage encodeMessage
  simp only [List.append_assoc]
  simp only [Bind.bind, Option.bind, expectLit_append, parseJsonString_encode]

theorem parseMsgsRest_encode (ms : List Message) (fuel : Nat) (rest : List Char)
    (hf : ms.length < fuel) :
    parseMsgsRest fuel (msgsTail ms ++ rest) = some (ms, rest) := by
  induction ms generalizing fuel with
  | nil =>
    cases fuel with
    | zero => omega
    | succ f =>
      rw [show msgsTail [] ++ rest = ']' :: rest from rfl]
      rfl
  | cons m ms ih =>
    cases fuel with
    | zero => simp at hf
    | succ f =>
      rw [show msgsTail (m :: ms) ++ rest =
        ',' :: ' ' :: (encodeMessage m ++ (msgsTail ms ++ rest)) from by
          simp [msgsTail, List.append_assoc]]
      simp only [parseMsgsRest]
      rw [parseMessage_encode m (msgsTail ms ++ rest)]
      simp only [Bind.bind, Option.bind]
      rw [ih f (by simp only [List.length_cons] at hf; omega)]

theorem litRole_cons (x : List Char) :
    litRole ++ x = '\x7b' :: ("\"role\": ".data ++ x) := rfl

theorem parseMsgList_msg (fuel : Nat) (x : Char) (xs : List Char) (hx : x ≠ ']') :
    parseMsgList fuel ('[' :: x :: xs) = (do
      let p ← parseMessage (x :: xs)
      let q ← parseMsgsRest fuel p.2
      some (p.1 :: q.1, q.2)) := by
  simp [parseMsgList, hx]

theorem parseMsgList_encode (ms : List Message) (fuel : Nat) (rest : List Char)
    (hf : ms.length ≤ fuel) :
    parseMsgList fuel (encodeMsgList ms ++ rest) = some (ms, rest) := by
  cases ms with
  | nil =>
    rw [show encodeMsgList [] ++ rest = '[' :: ']' :: rest from rfl]
    rfl
  | cons m ms' =>
    have hhead : encodeMessage m ++ (msgsTail ms' ++ rest) =
        '\x7b' :: ("\"role\": ".data ++ (encodeString m.role ++ (litContent ++
          (encodeString m.content ++ (litClose ++ (msgsTail ms' ++ rest)))))) := by
      simp [encodeMessage, litRole_cons, List.append_assoc]
    rw [show encodeMsgList (m :: ms') ++ rest =
      '[' :: (encodeMessage m ++ (msgsTail ms' ++ rest)) from by
        simp [encodeMsgList, List.append_assoc]]
    rw [hhead, parseMsgList_msg fuel _ _ (by decide), ← hhead,
      parseMessage_encode m (msgsTail ms' ++ rest)]
    simp only [Bind.bind, Option.bind]
    rw [parseMsgsRest_encode ms' fuel rest (by
      simp only [List.length_cons] at hf; omega)]

theorem msgs_length_le_msgsTail (ms : List Message) : ms.length ≤ (msgsTail ms).length := by
  induction ms with
  | nil => simp [msgsTail]
  | cons m ms ih => simp only [msgsTail, List.length_cons, List.length_append]; omega

theorem msgs_length_le_encodeMsgList (ms : List Message) :
    ms.length ≤ (encodeMsgList ms).length := by
  cases ms with
  | nil => simp [encodeMsgList]
  | cons m ms' =>
    have := msgs_length_le_msgsTail ms'
    simp only [encodeMsgList, List.length_cons, List.length_append]
    omega

theorem expectLit_self (pre : List Char) : expectLit pre pre = some [] := by
  have := expectLit_append pre []
  rwa [List.append_nil] at this

theorem parseEntryLine_encode (e : DatasetEntry) :
    parseEntryLine (encodeEntry e).data = some e := by
  have hdata : (encodeEntry e).data =
      litA ++ (encodeMsgList e.a ++ (litB ++ (encodeMsgList e.b ++ litClose))) := by
    show litA ++ encodeMsgList e.a ++ litB ++ encodeMsgList e.b ++ litClose = _
    simp [List.append_assoc]
  have hba : e.a.length ≤
      (litA ++ (encodeMsgList e.a ++ (litB ++ (encodeMsgList e.b ++ litClose)))).length := by
    have := msgs_length_le_encodeMsgList e.a
    simp only [List.length_append]
    omega
  have hbb : e.b.length ≤
      (litA ++ (encodeMsgList e.a ++ (litB ++ (encodeMsgList e.b ++ litClose)))).length := by
    have := msgs_length_le_encodeMsgList e.b
    simp only [List.length_append]
    omega
  unfold parseEntryLine
  rw [hdata]
  simp only [Bind.bind, Option.bind, expectLit_append]
  rw [parseMsgList_encode e.a _ _ hba]
  simp only [Option.bind, expectLit_append]
  rw [parseMsgList_encode e.b _ _ hbb]
  simp only [Option.bind, expectLit_self]

theorem hexDigitChar_ne_nl (d : Nat) (h : d < 16) : hexDigitChar d ≠ '\n' := by
  interval_cases d <;> decide

theorem no_nl_uchunk (n : Nat) : '\n' ∉ ('\\' :: 'u' :: hex4 n) := by
  intro hm
  rcases List.mem_cons.mp hm with h | h
  · exact absurd h (by decide)
  rcases List.mem_cons.mp h with h | h
  · exact absurd h (by decide)
  simp only [hex4, List.mem_cons, List.not_mem_nil, or_false] at h
  rcases h with h | h | h | h <;>
    exact hexDigitChar_ne_nl _ (Nat.mod_lt _ (by omega)) h.symm

theorem escapeChar_no_nl (c : Char) : '\n' ∉ escapeChar c := by
  unfold escapeChar
  split_ifs with h1 h2 h3 h4 h5 h6 h7 h8 h9
  · decide
  · decide
  · decide
  · decide
  · decide
  · decide
  · decide
  · exact no_nl_uchunk c.toNat
  · intro hm
    rcases List.mem_append.mp hm with h | h
    · exact no_nl_uchunk _ h
    · exact no_nl_uchunk _ h
  · intro hm
    exact h3 (List.mem_singleton.mp hm).symm

theorem encodeString_no_nl (s : String) : '\n' ∉ encodeString s := by
  unfold encodeString
  intro hm
  rcases List.mem_cons.mp hm with h | h
  · exact absurd h (by decide)
  rcases List.mem_append.mp h with h2 | h2
  · obtain ⟨c, _, hc⟩ := List.mem_flatMap.mp h2
    exact escapeChar_no_nl c hc
  · exact absurd h2 (by decide)

theorem encodeMessage_no_nl (m : Message) : '\n' ∉ encodeMessage m := by
  unfold encodeMessage
  intro hm
  rcases List.mem_append.mp hm with h | h
  · rcases List.mem_append.mp h with h | h
    · rcases List.mem_append.mp h with h | h
      · rcases List.mem_append.mp h with h | h
        · exact absurd h (by decide)
        · exact encodeString_no_nl m.role h
      · exact absurd h (by decide)
    · exact encodeString_no_nl m.content h
  · exact absurd h (by decide)

theorem msgsTail_no_nl (ms : List Message) : '\n' ∉ msgsTail ms := by
  induction ms with
  | nil => decide
  | cons m ms ih =>
    unfold msgsTail
    intro hm
    rcases List.mem_cons.mp hm with h | h
    · exact absurd h (by decide)
    rcases List.mem_cons.mp h with h | h
    · exact absurd h (by decide)
    rcases List.mem_append.mp h with h | h
    · exact encodeMessage_no_nl m h
    · exact ih h

theorem encodeMsgList_no_nl (ms : List Message) : '\n' ∉ encodeMsgList ms := by
  cases ms with
  | nil => decide
  | cons m ms' =>
    unfold encodeMsgList
    intro hm
    rcases List.mem_cons.mp hm with h | h
    · exact absurd h (by decide)
    rcases List.mem_append.mp h with h | h
    · exact encodeMessage_no_nl m h
    · exact msgsTail_no_nl ms' h

theorem encodeEntry_no_nl (e : DatasetEntry) : '\n' ∉ (encodeEntry e).data := by
  show '\n' ∉ litA ++ encodeMsgList e.a ++ litB ++ encodeMsgList e.b ++ litClose
  intro hm
  rcases List.mem_append.mp hm with h | h
  · rcases List.mem_append.mp h with h | h
    · rcases List.mem_append.mp h with h | h
      · rcases List.mem_append.mp h with h | h
        · exact absurd h (by decide)
        · exact encodeMsgList_no_nl e.a h
      · exact absurd h (by decide)
    · exact encodeMsgList_no_nl e.b h
  · exact absurd h (by decide)

theorem splitNl_append_line (line l2 : List Char) (h : '\n' ∉ line) :
    splitNl (line ++ '\n' :: l2) = line :: splitNl l2 := by
  induction line with
  | nil => simp [splitNl]
  | cons c cs ih =>
    have hc : c ≠ '\n' := by
      intro hh
      subst hh
      exact h (List.mem_cons_self ..)
    rw [List.cons_append]
    simp only [splitNl]
    rw [if_neg hc, ih (by intro hm; exact h (List.mem_cons_of_mem _ hm))]

theorem fileLines_lines (lines : List (List Char)) (h : ∀ l ∈ lines, '\n' ∉ l) :
    fileLines ((lines.map fun l => l ++ ['\n']).flatten) = lines := by
  have hs : splitNl ((lines.map fun l => l ++ ['\n']).flatten) = lines ++ [[]] := by
    induction lines with
    | nil => simp [splitNl]
    | cons l ls ih =>
      rw [List.map_cons, List.flatten_cons,
        show (l ++ ['\n']) ++ (ls.map fun l => l ++ ['\n']).flatten =
          l ++ '\n' :: (ls.map fun l => l ++ ['\n']).flatten from by simp,
        splitNl_append_line l _ (h l (List.mem_cons_self ..)),
        ih (fun x hx => h x (List.mem_cons_of_mem _ hx))]
      rfl
  unfold fileLines
  rw [hs, List.getLast?_concat]
  dsimp only
  rw [List.dropLast_concat]

theorem fileLines_save (es : List DatasetEntry) :
    fileLines (save_prompts es).data = es.map fun e => (encodeEntry e).data := by
  have h := fileLines_lines (es.map fun e => (encodeEntry e).data) (by
    intro l hl
    obtain ⟨e, _, rfl⟩ := List.mem_map.mp hl
    exact encodeEntry_no_nl e)
  rw [List.map_map] at h
  exact h

theorem parseLines_encode (es : List DatasetEntry) :
    parseLines (es.map fun e => (encodeEntry e).data) = some es := by
  induction es with
  | nil => rfl
  | cons e rest ih =>
    rw [List.map_cons]
    simp only [parseLines, Bind.bind, Option.bind, parseEntryLine_encode, ih]

/-- **C4**: the dataset serialiser round-trips — loading back a saved entry
sequence returns it unchanged, in file order (`load(save(entries)) ==
entries`). -/
theorem load_prompts_save_prompts (es : List DatasetEntry) :
    load_prompts (save_prompts es) = some es := by
  unfold load_prompts
  rw [fileLines_save, parseLines_encode]

/-- **C8**: `save_prompts` writes exactly one JSON object per line, one line
per entry, in input order (the lines of the written text are exactly the
entries' `json.dumps` encodings); the write is last-writer-wins at the target
path; and the shell's `create_dataset` creates the canonical per-user dataset
directory (and its parent) and writes the serialised dataset to
`~/.palinor/datasets/<name>.jsonl`.  The source opens the file with
`encoding="utf-8"`; text is modelled at character level. -/
theorem save_prompts_file_contract :
    (∀ es : List DatasetEntry, fileLinesS (save_prompts es) = es.map encodeEntry) ∧
    (∀ (files : String → Option String) (p : String) (es : List DatasetEntry),
      writeFile files p (save_prompts es) p = some (save_prompts es)) ∧
    (∀ st name a_trait b_trait recs prompts st',
      st.templateFiles (defaultTemplate st) = some recs →
      create_prompts_records recs a_trait b_trait = .ok prompts →
      shell_create_dataset st name a_trait b_trait none = .ok st' →
      (st.home ++ "/.palinor") ∈ st'.dirs ∧ datasetsDir st ∈ st'.dirs ∧
      st'.files (datasetPath st name) = some (save_prompts prompts)) := by
  refine ⟨?_, ?_, ?_⟩
  · intro es
    unfold fileLinesS
    rw [fileLines_save, List.map_map]
    rfl
  · intro files p es
    unfold writeFile
    rw [if_pos rfl]
  · intro st name a_trait b_trait recs prompts st' h1 h2 h3
    unfold shell_create_dataset at h3
    simp only [Option.getD] at h3
    rw [h1] at h3
    simp only [Bind.bind, Except.bind, h2] at h3
    injection h3 with h3
    subst h3
    refine ⟨List.mem_cons_self .., List.mem_cons_of_mem _ (List.mem_cons_self ..), ?_⟩
    show writeFile st.files (datasetPath st name) (save_prompts prompts)
      (datasetPath st name) = _
    unfold writeFile
    rw [if_pos rfl]

/-- Witness for C8: a concrete session creating dataset `x` from the bundled
template. -/
theorem save_prompts_file_contract_witness :
    fileLinesS (save_prompts demoDataset) = demoDataset.map encodeEntry ∧
    writeFile (fun _ => none) "out.jsonl" (save_prompts demoDataset) "out.jsonl" =
      some (save_prompts demoDataset) ∧
    (wShellState.home ++ "/.palinor") ∈ wShellStateAfter.dirs ∧
    datasetsDir wShellState ∈ wShellStateAfter.dirs ∧
    wShellStateAfter.files (datasetPath wShellState "x") = some (save_prompts demoDataset) := by
  obtain ⟨l1, l2, l3⟩ := save_prompts_file_contract
  obtain ⟨m1, m2, m3⟩ := l3 wShellState "x" "kind" "cruel" [⟨"Be {identity}.", ["Hi"]⟩]
    demoDataset wShellStateAfter rfl (by decide) rfl
  exact ⟨l1 demoDataset, l2 (fun _ => none) "out.jsonl" demoDataset, m1, m2, m3⟩

end Pngr
